import Mathlib

/-!
Verification of the single-file Go blackjack server (`main.go`).

The Go program is shallowly embedded: the card/deck data model, the hand
evaluator (`score`, `isBlackjack`, `hasAce`), the per-session state machine
of `gameLoop` (actions `hit` and `stand`, the dealer draw loop and the
outcome switch), `createGame`'s initial deal, and the session registry with
`cleanupOldGames`.  Go slice indexing past the end (`state.Deck[0]` on an
empty deck) is a runtime panic; it is modelled as `Option.none`.
-/

/-- Card: `type card int`; the deck holds the values 0–51. -/
abbrev card := Nat

/-- Rank names table (`values` in the source), length 13. -/
def values : List String :=
  ["2", "3", "4", "5", "6", "7", "8", "9", "10", "Jack", "Queen", "King", "Ace"]

/-- Point values per rank (`scores` in the source), length 13. -/
def scoresTable : List Nat := [2, 3, 4, 5, 6, 7, 8, 9, 10, 10, 10, 10, 11]

/-- Suit names table (`suits` in the source), length 4. -/
def suits : List String := ["spades", "hearts", "diamonds", "clubs"]

/-- Rank index of a card: `int(c) % len(values)` (from `card.String`). -/
def rankIndex (c : card) : Nat := c % values.length

/-- Suit index of a card: `int(c) % len(suits)` (from `card.String`). -/
def suitIndex (c : card) : Nat := c % suits.length

/-- `func (c card) String() string`: "<rank> of <suit>". -/
def cardString (c : card) : String :=
  (values.getD (rankIndex c) "") ++ " of " ++ (suits.getD (suitIndex c) "")

/-- `func (c card) score() int`: `scores[int(c)%len(scores)]`. -/
def cardScore (c : card) : Nat := scoresTable.getD (c % scoresTable.length) 0

/-- First loop of `func score`: accumulated total with every Ace counted 11. -/
def handTotal (hand : List card) : Nat :=
  hand.foldl (fun t c => t + cardScore c) 0

/-- First loop of `func score`: number of Aces seen (cards with value 11). -/
def handAces (hand : List card) : Nat :=
  hand.foldl (fun a c => if cardScore c == 11 then a + 1 else a) 0

/-- Second loop of `func score`: `for total > 21 && aces > 0 { total -= 10; aces-- }`. -/
def scoreAux : Nat → Nat → Nat
  | total, 0 => total
  | total, a + 1 => if 21 < total then scoreAux (total - 10) a else total

/-- `func score(hand []card) int`: best total with Ace demotion. -/
def score (hand : List card) : Nat :=
  scoreAux (handTotal hand) (handAces hand)

/-- `func isBlackjack(hand []card) bool`. -/
def isBlackjack (hand : List card) : Bool :=
  hand.length == 2 && score hand == 21

/-- `func hasAce(hand []card) bool`: some card in the hand is worth 11. -/
def hasAce (hand : List card) : Bool :=
  hand.any (fun c => cardScore c == 11)

/-- Sum of card values with every Ace counted as 1 instead of 11. -/
def lowTotal (hand : List card) : Nat :=
  (hand.map (fun c => if cardScore c == 11 then 1 else cardScore c)).sum

/-- Modelled from the spec: §4.1 `hasSoftValue(hand)` ("has usable ace"),
which is absent from the source (the source only has `hasAce`).  True iff at
least one Ace is still being counted as 11 under the scoring rule, i.e. the
demotion loop did not demote every Ace. -/
def hasSoftValueSpec (hand : List card) : Bool :=
  hasAce hand && lowTotal hand < score hand

/-- `GameState` from the source: hands, remaining deck, flags, message. -/
structure GameState where
  PlayerHand : List card
  DealerHand : List card
  Deck : List card
  Bust : Bool
  Stand : Bool
  Message : String
deriving DecidableEq, Repr

/-- The `"hit"` case of `gameLoop`.  `none` models the Go panic raised by
`state.Deck[0]` when the deck slice is empty. -/
def hitStep (s : GameState) : Option GameState :=
  if s.Stand || s.Bust then some s
  else
    match s.Deck with
    | [] => none
    | c :: rest =>
      let s1 : GameState := { s with PlayerHand := s.PlayerHand ++ [c], Deck := rest }
      let s2 : GameState :=
        if 21 < score s1.PlayerHand then { s1 with Bust := true, Message := "Bust!" } else s1
      let s3 : GameState :=
        if isBlackjack s2.PlayerHand then
          { s2 with Stand := true, Message := "Blackjack! You win!" }
        else s2
      some s3

/-- The dealer draw loop of the `"stand"` case:
`for dealerScore < 17 || (dealerScore == 17 && hasAce(state.DealerHand))`,
drawing `state.Deck[0]` each iteration.  Returns the final dealer hand and
remaining deck; `none` models the panic on drawing from an empty deck. -/
def dealerLoop : List card → List card → Option (List card × List card)
  | dh, [] =>
      if score dh < 17 || (score dh == 17 && hasAce dh) then none else some (dh, [])
  | dh, c :: rest =>
      if score dh < 17 || (score dh == 17 && hasAce dh) then dealerLoop (dh ++ [c]) rest
      else some (dh, c :: rest)

/-- The outcome switch at the end of the `"stand"` case of `gameLoop`. -/
def outcomeMsg (playerScore dealerScore : Nat) : String :=
  if 21 < dealerScore then "Dealer busts! You win!"
  else if dealerScore < playerScore then "You win!"
  else if playerScore == dealerScore then "Push!"
  else if playerScore == 21 then "Blackjack! You win!"
  else "You lose!"

/-- The `"stand"` case of `gameLoop`: set `Stand`, run the dealer loop,
then write the outcome message. -/
def standStep (s : GameState) : Option GameState :=
  if s.Stand || s.Bust then some s
  else
    match dealerLoop s.DealerHand s.Deck with
    | none => none
    | some (dh, rest) =>
      some { s with Stand := true, DealerHand := dh, Deck := rest,
                    Message := outcomeMsg (score s.PlayerHand) (score dh) }

/-- One command processed by the `gameLoop` actor: the `switch cmd.Action`
with cases `"hit"` and `"stand"`; any other action falls through and the
state is returned unchanged (`cmd.Response <- &state`).  `some s` is the
snapshot sent on the reply channel; `none` is a panic of the goroutine. -/
def applyCommand (s : GameState) (action : String) : Option GameState :=
  if action = "hit" then hitStep s
  else if action = "stand" then standStep s
  else some s

/-- A sequence of commands submitted to one session, applied in order. -/
def runActions : GameState → List String → Option GameState
  | s, [] => some s
  | s, a :: rest =>
    match applyCommand s a with
    | none => none
    | some s2 => runActions s2 rest

/-- The ordered deck built by `createGame` before shuffling: `deck[i] = card(i)`. -/
def orderedDeck : List card := List.range 52

/-- `createGame`'s initial state from the (already shuffled) deck:
`PlayerHand = []card{deck[0]}`, `DealerHand = []card{deck[1]}`, `Deck = deck[2:]`.
`none` when the deck has fewer than two cards (never happens on a 52-card deck). -/
def createGameState : List card → Option GameState
  | c0 :: c1 :: rest =>
      some { PlayerHand := [c0], DealerHand := [c1], Deck := rest,
             Bust := false, Stand := false, Message := "" }
  | _ => none

/-- All cards of a state: player hand, dealer hand and remaining deck. -/
def stateCards (s : GameState) : Multiset card :=
  ↑(s.PlayerHand ++ s.DealerHand ++ s.Deck)

/-- A registry entry: identifier, creation time (minutes) and the game state
owned by the session's goroutine (`games[gameID] = session`). -/
structure SessionEntry where
  gid : String
  created : Nat
  state : GameState
deriving DecidableEq

/-- `getSession`: look an identifier up in the registry. -/
def getSession (games : List SessionEntry) (gid : String) : Option SessionEntry :=
  games.find? (fun e => e.gid == gid)

/-- `cleanupOldGames`: delete every session with `time.Since(created) > 30` minutes. -/
def cleanupOldGames (now : Nat) (games : List SessionEntry) : List SessionEntry :=
  games.filter (fun e => decide (now - e.created ≤ 30))

/-- A handler turn (`gameHandler`): look the session up, let its goroutine
process the command, observe the reply.  Only the addressed session's
`GameState` changes; the registry's identifiers are untouched. -/
def submitCommand (games : List SessionEntry) (gid : String) (a : String) :
    Option (List SessionEntry × GameState) :=
  match getSession games gid with
  | none => none
  | some e =>
    match applyCommand e.state a with
    | none => none
    | some st =>
      some (games.map (fun e2 => if e2.gid == gid then { e2 with state := st } else e2), st)

lemma foldl_add_cardScore (hand : List card) (n : Nat) :
    hand.foldl (fun t c => t + cardScore c) n = n + (hand.map cardScore).sum := by
  induction hand generalizing n with
  | nil => simp
  | cons c l ih =>
      simp only [List.foldl_cons, List.map_cons, List.sum_cons, ih]
      omega

lemma scoreAux_succ (t a : Nat) :
    scoreAux t (a + 1) = if 21 < t then scoreAux (t - 10) a else t := rfl

lemma scoreAux_spec (a t : Nat) :
    ∃ j, j ≤ a ∧ scoreAux t a = t - 10 * j ∧ (scoreAux t a ≤ 21 ∨ j = a) := by
  induction a generalizing t with
  | zero => exact ⟨0, Nat.le_refl 0, by simp [scoreAux], Or.inr rfl⟩
  | succ a ih =>
      rw [scoreAux_succ]
      by_cases h : 21 < t
      · rw [if_pos h]
        obtain ⟨j, hj, heq, hor⟩ := ih (t - 10)
        refine ⟨j + 1, by omega, by omega, ?_⟩
        rcases hor with h1 | h1
        · exact Or.inl h1
        · exact Or.inr (by omega)
      · rw [if_neg h]
        exact ⟨0, by omega, by omega, Or.inl (by omega)⟩

/-- C5: `score` sums the fixed card values (2–10 face, J/Q/K 10, Ace 11) and
then demotes one still-11 Ace at a time (subtract 10) while the total exceeds
21: the result is the base total minus 10 for each of `j ≤ #Aces` demoted
Aces (so no Ace is ever counted as both 11 and 1), and the result is ≤ 21
whenever some assignment of Ace values reaches ≤ 21. -/
theorem score_ace_demotion_sound (hand : List card) :
    handTotal hand = (hand.map cardScore).sum ∧
    (∃ j, j ≤ handAces hand ∧ score hand = handTotal hand - 10 * j) ∧
    (∀ i, i ≤ handAces hand → handTotal hand - 10 * i ≤ 21 → score hand ≤ 21) := by
  refine ⟨by simp [handTotal, foldl_add_cardScore], ?_, ?_⟩
  · obtain ⟨j, hj, heq, _⟩ := scoreAux_spec (handAces hand) (handTotal hand)
    exact ⟨j, hj, heq⟩
  · intro i hi hle
    obtain ⟨j, hj, heq, hor⟩ := scoreAux_spec (handAces hand) (handTotal hand)
    have hss : score hand = scoreAux (handTotal hand) (handAces hand) := rfl
    rcases hor with h1 | h1 <;> omega

/-- Witness for C5 at the two-Ace hand [Ace, Ace] (cards 12, 12). -/
theorem score_ace_demotion_sound_witness :
    (2 ≤ handAces [12, 12] ∧ handTotal [12, 12] - 10 * 2 ≤ 21) ∧ score [12, 12] ≤ 21 :=
  ⟨by decide, (score_ace_demotion_sound [12, 12]).2.2 2 (by decide) (by decide)⟩

/-- C1: refuted on the code.  With the dealer holding Ace+6+10 (cards
12, 4, 8) — a hard 17, no Ace still counted as 11 — the dealer loop draws
again, because its condition uses `hasAce` (an Ace is present) instead of
the spec's `hasSoftValue` (an Ace is still counted as 11). -/
theorem dealer_draws_on_hard_seventeen_with_ace :
    score [12, 4, 8] = 17 ∧ hasSoftValueSpec [12, 4, 8] = false ∧
    hasAce [12, 4, 8] = true ∧
    dealerLoop [12, 4, 8] [0] = some ([12, 4, 8, 0], []) := by decide

/-- C3: refuted on the code.  With an empty remaining deck, both the hit
draw and the dealer draw evaluate `state.Deck[0]` on an empty slice: the
embedded step is `none` (the goroutine panics with index-out-of-range);
no `DeckExhausted` error value exists in the code. -/
theorem draw_on_empty_deck_panics :
    hitStep { PlayerHand := [0, 1], DealerHand := [2], Deck := [],
              Bust := false, Stand := false, Message := "" } = none ∧
    standStep { PlayerHand := [0, 1], DealerHand := [2], Deck := [],
                Bust := false, Stand := false, Message := "" } = none := by decide

/-- C6: on a terminal state (Stand or Bust already true) every command,
hit and stand included, leaves the state unchanged and replies with the
same snapshot — a no-op reply, not an error. -/
theorem terminal_action_noop (s : GameState) (a : String)
    (h : s.Stand = true ∨ s.Bust = true) : applyCommand s a = some s := by
  have hsb : (s.Stand || s.Bust) = true := by rcases h with h | h <;> simp [h]
  by_cases h1 : a = "hit"
  · simp [applyCommand, h1, hitStep, hsb]
  · by_cases h2 : a = "stand"
    · simp [applyCommand, h1, h2, standStep, hsb]
    · simp [applyCommand, h1, h2]

/-- Witness for C6 at a concrete standing state and the hit action. -/
theorem terminal_action_noop_witness :
    ((⟨[0], [1], [2], false, true, "done"⟩ : GameState).Stand = true ∨
     (⟨[0], [1], [2], false, true, "done"⟩ : GameState).Bust = true) ∧
    applyCommand ⟨[0], [1], [2], false, true, "done"⟩ "hit" =
      some ⟨[0], [1], [2], false, true, "done"⟩ :=
  ⟨Or.inl rfl, terminal_action_noop _ "hit" (Or.inl rfl)⟩

/-- C10: a command whose action is neither "hit" nor "stand" (for example
the empty string sent by `newHandler`) leaves the state unchanged and still
replies with the current snapshot: a pure read-only query. -/
theorem unknown_action_is_readonly (s : GameState) (a : String)
    (h1 : a ≠ "hit") (h2 : a ≠ "stand") : applyCommand s a = some s := by
  simp [applyCommand, h1, h2]

/-- Witness for C10 at the empty action of `newHandler`. -/
theorem unknown_action_is_readonly_witness :
    ("" ≠ "hit" ∧ "" ≠ "stand") ∧
    applyCommand ⟨[3], [4], [5], false, false, ""⟩ "" =
      some ⟨[3], [4], [5], false, false, ""⟩ :=
  ⟨⟨by decide, by decide⟩, unknown_action_is_readonly _ "" (by decide) (by decide)⟩

/-- C9: the card encoding is a bijection between 0–51 and the 13 ranks × 4
suits: the modulo decomposition is injective on 0..51 and attains every
(rank, suit) combination. -/
theorem card_encoding_bijective :
    (∀ c1, c1 < 52 → ∀ c2, c2 < 52 →
        rankIndex c1 = rankIndex c2 → suitIndex c1 = suitIndex c2 → c1 = c2) ∧
    (∀ r, r < 13 → ∀ s, s < 4 → ∃ c, c < 52 ∧ rankIndex c = r ∧ suitIndex c = s) := by
  constructor
  · decide
  · decide

/-- Witness for C9: the Ace of clubs pair (12, 3) is attained. -/
theorem card_encoding_bijective_witness :
    (12 < 13 ∧ 3 < 4) ∧ (∃ c, c < 52 ∧ rankIndex c = 12 ∧ suitIndex c = 3) :=
  ⟨⟨by decide, by decide⟩, card_encoding_bijective.2 12 (by decide) 3 (by decide)⟩

/-- C2 counterexample: on the identity shuffle of the 52-card deck,
`createGame` produces hands of one card each with 50 cards remaining,
not two each with 48 remaining (`PlayerHand: []card{deck[0]}`,
`DealerHand: []card{deck[1]}`, `Deck: deck[2:]`). -/
theorem createGame_initial_sizes_cex :
    (createGameState orderedDeck).map
        (fun s => (s.PlayerHand.length, s.DealerHand.length, s.Deck.length)) =
      some (1, 1, 50) ∧
    ((1, 1, 50) : Nat × Nat × Nat) ≠ (2, 2, 48) :=
  ⟨by decide, by decide⟩

/-- C2 amended: `createGame` allocates a fresh shuffled 52-card deck and
deals exactly ONE card to the player and ONE to the dealer, so the initial
state has hand sizes 1 and 1 with 50 cards remaining. -/
theorem createGame_deals_one_card_each (deck : List card) (h : deck.length = 52) :
    ∃ s, createGameState deck = some s ∧ s.PlayerHand.length = 1 ∧
         s.DealerHand.length = 1 ∧ s.Deck.length = 50 := by
  rcases deck with _ | ⟨c0, _ | ⟨c1, rest⟩⟩
  · simp at h
  · simp at h
  · have hr : rest.length = 50 := by
      simp only [List.length_cons] at h
      omega
    exact ⟨_, rfl, rfl, rfl, hr⟩

/-- Witness for the amended C2 at the identity shuffle. -/
theorem createGame_deals_one_card_each_witness :
    orderedDeck.length = 52 ∧
    (∃ s, createGameState orderedDeck = some s ∧ s.PlayerHand.length = 1 ∧
          s.DealerHand.length = 1 ∧ s.Deck.length = 50) :=
  ⟨by decide, createGame_deals_one_card_each orderedDeck (by decide)⟩

lemma outcomeMsg_cases (p d : Nat) :
    (21 < d → outcomeMsg p d = "Dealer busts! You win!") ∧
    (d ≤ 21 → p = d → outcomeMsg p d = "Push!") ∧
    (d ≤ 21 → d < p → outcomeMsg p d = "You win!") ∧
    (d ≤ 21 → p < d → outcomeMsg p d = "You lose!") := by
  refine ⟨fun h1 => ?_, fun h1 h2 => ?_, fun h1 h2 => ?_, fun h1 h2 => ?_⟩ <;>
    · unfold outcomeMsg
      simp only [beq_iff_eq]
      split_ifs <;> first | rfl | omega

/-- C7: after a completed stand, the final message is determined exactly as
claimed: dealer score > 21 → player wins ("Dealer busts! You win!"); equal
scores → "Push!"; player score > dealer score → "You win!"; otherwise
"You lose!" (the code's `playerScore == 21` branch is unreachable). -/
theorem stand_outcome_determination (s s2 : GameState)
    (hs : s.Stand = false) (hb : s.Bust = false)
    (h : standStep s = some s2) :
    (21 < score s2.DealerHand → s2.Message = "Dealer busts! You win!") ∧
    (score s2.DealerHand ≤ 21 → score s.PlayerHand = score s2.DealerHand →
      s2.Message = "Push!") ∧
    (score s2.DealerHand ≤ 21 → score s2.DealerHand < score s.PlayerHand →
      s2.Message = "You win!") ∧
    (score s2.DealerHand ≤ 21 → score s.PlayerHand < score s2.DealerHand →
      s2.Message = "You lose!") := by
  unfold standStep at h
  rw [if_neg (by simp [hs, hb])] at h
  cases hdl : dealerLoop s.DealerHand s.Deck with
  | none => rw [hdl] at h; simp at h
  | some pr =>
      obtain ⟨dh, rest⟩ := pr
      rw [hdl] at h
      simp only [Option.some.injEq] at h
      subst h
      exact outcomeMsg_cases (score s.PlayerHand) (score dh)

/-- Scenario C state: player 18 (cards 8=ten, 6=eight), dealer holding an
Ace (card 12), deck [4 (a six), 0 (a two)]. -/
def scenarioC : GameState := ⟨[8, 6], [12], [4, 0], false, false, ""⟩

/-- Scenario C final state: the dealer drew on soft 17 and ended at 19. -/
def scenarioCEnd : GameState := ⟨[8, 6], [12, 4, 0], [], false, true, "You lose!"⟩

/-- Witness for C7 at Scenario C: the player stood at 18, the dealer drew to
soft 17, drew again per the loop and ended at 19, so the message is
"You lose!". -/
theorem stand_outcome_determination_witness :
    (scenarioC.Stand = false ∧ scenarioC.Bust = false ∧
      standStep scenarioC = some scenarioCEnd ∧
      score scenarioC.PlayerHand = 18 ∧ score scenarioCEnd.DealerHand = 19) ∧
    (score scenarioCEnd.DealerHand ≤ 21 →
      score scenarioC.PlayerHand < score scenarioCEnd.DealerHand →
      scenarioCEnd.Message = "You lose!") :=
  ⟨⟨rfl, rfl, by decide, by decide, by decide⟩,
   (stand_outcome_determination scenarioC scenarioCEnd rfl rfl (by decide)).2.2.2⟩

/-- The registry before the C8 counterexample round: one fresh session. -/
def regC8 : List SessionEntry :=
  [⟨"game-1", 0, ⟨[0, 1], [8], [9], false, false, ""⟩⟩]

/-- The registry after the C8 counterexample round completed via Stand. -/
def regC8After : List SessionEntry :=
  [⟨"game-1", 0, ⟨[0, 1], [8, 9], [], false, true, "You lose!"⟩⟩]

/-- C8 counterexample: a round completed by Stand does NOT remove the
session from the registry: `gameLoop`'s stand case only mutates the
`GameState`; only `cleanupOldGames` ever deletes from `games`.  After the
stand completes, the session is still found by lookup, in Stand state. -/
theorem stand_leaves_session_in_registry :
    submitCommand regC8 "game-1" "stand" =
      some (regC8After, ⟨[0, 1], [8, 9], [], false, true, "You lose!"⟩) ∧
    getSession regC8After "game-1" =
      some ⟨"game-1", 0, ⟨[0, 1], [8, 9], [], false, true, "You lose!"⟩⟩ ∧
    (getSession regC8After "game-1").isSome = true :=
  ⟨by decide, by decide, by decide⟩

lemma map_gid_update (games : List SessionEntry) (gid : String) (st : GameState) :
    (games.map (fun e2 => if e2.gid == gid then { e2 with state := st } else e2)).map
        SessionEntry.gid = games.map SessionEntry.gid := by
  induction games with
  | nil => rfl
  | cons e l ih =>
      simp only [List.map_cons, ih]
      by_cases h : (e.gid == gid) = true
      · simp [h]
      · simp [h]

/-- C8 amended: sessions leave the registry only through the TTL eviction
pass: after `cleanupOldGames` runs at time `now`, any identifier all of
whose entries were created more than 30 minutes before `now` is absent from
lookups; processing a command (Stand included) never changes the set of
registered identifiers. -/
theorem session_removal_amended (now : Nat) (games : List SessionEntry)
    (gid a : String) :
    ((∀ e ∈ games, e.gid = gid → 30 < now - e.created) →
      getSession (cleanupOldGames now games) gid = none) ∧
    (∀ games2 st, submitCommand games gid a = some (games2, st) →
      games2.map SessionEntry.gid = games.map SessionEntry.gid) := by
  constructor
  · intro hall
    unfold getSession cleanupOldGames
    rw [List.find?_eq_none]
    intro e he hbeq
    rw [List.mem_filter] at he
    obtain ⟨hmem, hkeep⟩ := he
    simp only [decide_eq_true_eq] at hkeep
    have hgid : e.gid = gid := by simpa using hbeq
    have := hall e hmem hgid
    omega
  · intro games2 st h
    unfold submitCommand at h
    cases hg : getSession games gid with
    | none => rw [hg] at h; simp at h
    | some e =>
        rw [hg] at h
        dsimp only at h
        cases ha : applyCommand e.state a with
        | none => rw [ha] at h; simp at h
        | some st2 =>
            rw [ha] at h
            dsimp only at h
            simp only [Option.some.injEq, Prod.mk.injEq] at h
            obtain ⟨h1, _⟩ := h
            rw [← h1]
            exact map_gid_update games gid st2

/-- Witness for the amended C8: at time 100 the session created at time 0
is evicted and no longer found. -/
theorem session_removal_amended_witness :
    (∀ e ∈ regC8, e.gid = "game-1" → 30 < 100 - e.created) ∧
    getSession (cleanupOldGames 100 regC8) "game-1" = none :=
  ⟨by decide, (session_removal_amended 100 regC8 "game-1" "stand").1 (by decide)⟩

lemma dealerLoop_append (deck : List card) :
    ∀ dh dh2 deck2, dealerLoop dh deck = some (dh2, deck2) → dh2 ++ deck2 = dh ++ deck := by
  induction deck with
  | nil =>
      intro dh dh2 deck2 h
      unfold dealerLoop at h
      split at h
      · exact absurd h (by simp)
      · simp only [Option.some.injEq, Prod.mk.injEq] at h
        obtain ⟨h1, h2⟩ := h
        subst h1; subst h2
        rfl
  | cons c rest ih =>
      intro dh dh2 deck2 h
      unfold dealerLoop at h
      split at h
      · have h2 := ih (dh ++ [c]) dh2 deck2 h
        rw [h2]
        simp
      · simp only [Option.some.injEq, Prod.mk.injEq] at h
        obtain ⟨h1, h2⟩ := h
        subst h1; subst h2
        rfl

lemma cards_move_head (ph dh rest : List card) (c : card) :
    (↑((ph ++ [c]) ++ dh ++ rest) : Multiset card) = ↑(ph ++ dh ++ (c :: rest)) := by
  rw [Multiset.coe_eq_coe]
  simp only [List.append_assoc, List.singleton_append]
  exact List.Perm.append_left ph List.perm_middle.symm

lemma hitStep_cards (s s2 : GameState) (h : hitStep s = some s2) :
    stateCards s2 = stateCards s := by
  unfold hitStep at h
  by_cases hsb : (s.Stand || s.Bust) = true
  · rw [if_pos hsb] at h
    simp only [Option.some.injEq] at h
    subst h
    rfl
  · rw [if_neg hsb] at h
    cases hd : s.Deck with
    | nil => rw [hd] at h; simp at h
    | cons c rest =>
        rw [hd] at h
        dsimp only at h
        split at h <;> split at h <;>
        · simp only [Option.some.injEq] at h
          subst h
          show (↑((s.PlayerHand ++ [c]) ++ s.DealerHand ++ rest) : Multiset card) = stateCards s
          unfold stateCards
          rw [hd]
          exact cards_move_head s.PlayerHand s.DealerHand rest c

lemma standStep_cards (s s2 : GameState) (h : standStep s = some s2) :
    stateCards s2 = stateCards s := by
  unfold standStep at h
  split at h
  · simp only [Option.some.injEq] at h
    subst h
    rfl
  · cases hdl : dealerLoop s.DealerHand s.Deck with
    | none => rw [hdl] at h; simp at h
    | some pr =>
        obtain ⟨dh, rest⟩ := pr
        rw [hdl] at h
        dsimp only at h
        simp only [Option.some.injEq] at h
        subst h
        have hap := dealerLoop_append s.Deck s.DealerHand dh rest hdl
        show (↑(s.PlayerHand ++ dh ++ rest) : Multiset card) =
          ↑(s.PlayerHand ++ s.DealerHand ++ s.Deck)
        rw [List.append_assoc, List.append_assoc, hap]

lemma applyCommand_cards (s s2 : GameState) (a : String)
    (h : applyCommand s a = some s2) : stateCards s2 = stateCards s := by
  unfold applyCommand at h
  split_ifs at h
  · exact hitStep_cards s s2 h
  · exact standStep_cards s s2 h
  · simp only [Option.some.injEq] at h
    subst h
    rfl

lemma runActions_cards (acts : List String) :
    ∀ s s2, runActions s acts = some s2 → stateCards s2 = stateCards s := by
  induction acts with
  | nil =>
      intro s s2 h
      simp only [runActions, Option.some.injEq] at h
      subst h
      rfl
  | cons a rest ih =>
      intro s s2 h
      unfold runActions at h
      cases hc : applyCommand s a with
      | none => rw [hc] at h; simp at h
      | some s1 =>
          rw [hc] at h
          dsimp only at h
          rw [ih s1 s2 h, applyCommand_cards s s1 a hc]

/-- C4: from any fresh session (the deal of a shuffled 52-card deck) and any
sequence of hit/stand commands that completes without a panic, the multiset
of cards in PlayerHand, DealerHand and the remaining Deck equals the
original 52 distinct cards: no card is duplicated and none is lost. -/
theorem deck_partition_invariant (deck : List card) (acts : List String)
    (s0 s : GameState) (hperm : List.Perm deck orderedDeck)
    (h0 : createGameState deck = some s0) (hrun : runActions s0 acts = some s) :
    stateCards s = ↑orderedDeck ∧ (s.PlayerHand ++ s.DealerHand ++ s.Deck).Nodup := by
  have hinit : stateCards s0 = ↑deck := by
    rcases deck with _ | ⟨c0, _ | ⟨c1, rest⟩⟩
    · simp [createGameState] at h0
    · simp [createGameState] at h0
    · simp only [createGameState, Option.some.injEq] at h0
      subst h0
      rfl
  have hmain : stateCards s = ↑orderedDeck := by
    rw [runActions_cards acts s0 s hrun, hinit, Multiset.coe_eq_coe]
    exact hperm
  refine ⟨hmain, ?_⟩
  have hp : List.Perm (s.PlayerHand ++ s.DealerHand ++ s.Deck) orderedDeck :=
    Multiset.coe_eq_coe.mp hmain
  exact hp.symm.nodup (List.nodup_range 52)

/-- Initial state of a session dealt from the identity shuffle. -/
def initC4 : GameState :=
  { PlayerHand := [0], DealerHand := [1], Deck := (List.range 52).drop 2,
    Bust := false, Stand := false, Message := "" }

/-- Witness for C4 at the identity shuffle and the empty action sequence. -/
theorem deck_partition_invariant_witness :
    List.Perm orderedDeck orderedDeck ∧
    createGameState orderedDeck = some initC4 ∧
    runActions initC4 [] = some initC4 ∧
    stateCards initC4 = ↑orderedDeck :=
  ⟨List.Perm.refl _, by decide, rfl,
   (deck_partition_invariant orderedDeck [] initC4 initC4 (List.Perm.refl _)
      (by decide) rfl).1⟩
